import Mathlib

/-!
# upstash-redis-local: startup configuration and the retrying dialer

A shallow embedding of `main.go`: the configuration record `Cmd` with
`Validate`, `getEnvOrDefault`, the flag/environment assembly done by `main`,
the pool's `TestOnBorrow` check, the retry loop `dialWithRetry` with its
capped exponential backoff, `testRedisConnection`, and the control flow of
`main` up to `server.Serve()`.

Conventions.
* Go `int` is taken to be 64 bits wide (the amd64/arm64 targets of the
  project), `time.Duration` is an `int64` count of nanoseconds.  Machine
  integers are `Int` values, every arithmetic result is wrapped by
  `wrapInt64`.
* Effects are recorded as a list of `Event`s in program order.  Log lines
  written through zap are not recorded.
* The network is an oracle: `dial i` is what the call of `redis.Dial` made in
  loop iteration `i` returns.
-/

namespace UpstashLocal

/-! ## Machine arithmetic -/

/-- Two's complement wrap-around of an integer into the `int64` range. -/
def wrapInt64 (x : Int) : Int :=
  (x + 2 ^ 63) % 2 ^ 64 - 2 ^ 63

/-- Go `a * b` on `int` / `int64` / `time.Duration`. -/
def mulInt64 (a b : Int) : Int :=
  wrapInt64 (a * b)

/-- Go `x << s` on `int` with an unsigned shift count: bits shifted out are
lost, a count of 64 or more gives 0. -/
def shlInt64 (x : Int) (s : Nat) : Int :=
  wrapInt64 (x * 2 ^ s)

/-- Constant `time.Millisecond`, in nanoseconds. -/
def millisecond : Int := 1000000

/-- Constant `time.Second`, in nanoseconds. -/
def second : Int := 1000 * millisecond

/-- Constant `time.Minute`, in nanoseconds. -/
def minute : Int := 60 * second

/-- The backoff computation of `dialWithRetry` (lines 186-189):
`delay := time.Duration(retryDelayMs*(1<<uint(i))) * time.Millisecond`,
then `if delay > 30*time.Second { delay = 30 * time.Second }`.
The result is the value handed to `time.Sleep`. -/
def backoffDelay (retryDelayMs : Int) (i : Nat) : Int :=
  let delay := mulInt64 (mulInt64 retryDelayMs (shlInt64 1 i)) millisecond
  if delay > 30 * second then 30 * second else delay

/-- Time `time.Sleep d` asks for: a negative or zero duration returns
immediately. -/
def sleepTime (d : Int) : Int :=
  if d ≤ 0 then 0 else d

/-! ## Effects and errors -/

/-- Observable actions of the program, in the order they happen. -/
inductive Event where
  /-- a call of `redis.Dial` -/
  | dial
  /-- a call of `time.Sleep d`, `d` in nanoseconds -/
  | sleep (d : Int)
  /-- the command `PING` sent on an established connection -/
  | ping
  /-- the call of `server.Serve()` -/
  | serve
  /-- the call of `printHelp()` -/
  | help
  deriving DecidableEq, Repr

/-- Go `error` values that occur in `main.go`.  `E` is the type of the errors
produced by the redigo library (`redis.Dial`, `conn.Do`). -/
inductive GoError (E : Type) where
  /-- an error returned by the library -/
  | lib (e : E)
  /-- `fmt.Errorf("failed to connect to Redis after %d attempts: %w", maxRetries, err)`;
  `cause` is `none` when `err` is nil, in which case nothing is wrapped -/
  | connectFailed (maxRetries : Int) (cause : Option E)
  /-- `fmt.Errorf("Redis PING failed: %w", err)` -/
  | pingFailed (cause : GoError E)
  deriving DecidableEq, Repr

/-- Go `errors.Unwrap`. -/
def GoError.unwrap {E : Type} : GoError E → Option (GoError E)
  | .lib _ => none
  | .connectFailed _ cause => cause.map GoError.lib
  | .pingFailed cause => some cause

/-- Number of `redis.Dial` calls in a trace. -/
def attempts : List Event → Nat
  | [] => 0
  | Event.dial :: t => attempts t + 1
  | _ :: t => attempts t

/-- The durations handed to `time.Sleep` in a trace, in order. -/
def sleeps : List Event → List Int
  | [] => []
  | Event.sleep d :: t => d :: sleeps t
  | _ :: t => sleeps t

/-- Total time spent sleeping in a trace. -/
def totalWait (t : List Event) : Int :=
  ((sleeps t).map sleepTime).sum

/-! ## dialWithRetry -/

/-- What `dialWithRetry` returns (`conn`, `err`) together with the effects it
performed. -/
structure DialOutcome (C E : Type) where
  conn : Option C
  err : Option (GoError E)
  trace : List Event
  deriving DecidableEq, Repr

/-- The `for i := 0; i < maxRetries; i++` loop of `dialWithRetry`, entered at
index `i` with the current value of the variable `err` and the effects so
far. -/
def dialLoop {C E : Type} (dial : Nat → Except E C) (maxRetries retryDelayMs : Int)
    (i : Nat) (err : Option E) (tr : List Event) : DialOutcome C E :=
  if (i : Int) < maxRetries then
    match dial i with
    | .ok conn => ⟨some conn, none, tr ++ [Event.dial]⟩
    | .error e =>
      dialLoop dial maxRetries retryDelayMs (i + 1) (some e)
        (tr ++ [Event.dial, Event.sleep (backoffDelay retryDelayMs i)])
  else
    ⟨none, some (GoError.connectFailed maxRetries err), tr⟩
termination_by (maxRetries - i).toNat
decreasing_by omega

/-- Go `dialWithRetry(addr, maxRetries, retryDelayMs, logger)`. -/
def dialWithRetry {C E : Type} (dial : Nat → Except E C) (maxRetries retryDelayMs : Int) :
    DialOutcome C E :=
  dialLoop dial maxRetries retryDelayMs 0 none []

/-! ## Configuration -/

/-- Go `type Cmd struct`. -/
structure Cmd where
  RedisAddr : String
  Addr : String
  ApiToken : String
  MaxRetries : Int
  RetryDelayMs : Int
  deriving DecidableEq, Repr

/-- Go `(c *Cmd) Validate() error`; `none` is the nil error, `some msg` is
`errors.New(msg)`. -/
def Cmd.Validate (c : Cmd) : Option String :=
  if c.ApiToken = "" then some "API Token empty"
  else if c.RedisAddr = "" then some "redis Addr empty"
  else if c.Addr = "" then some "webserver addr empty"
  else none

/-- The process environment: `none` for a variable that is not set. -/
abbrev Env := String → Option String

/-- Go `os.Getenv`: the value of the variable, empty when it is not set. -/
def getenv (env : Env) (key : String) : String :=
  (env key).getD ""

/-- Go `getEnvOrDefault(key, defaultValue)`. -/
def getEnvOrDefault (env : Env) (key defaultValue : String) : String :=
  let value := getenv env key
  if value ≠ "" then value else defaultValue

/-- What `flag.Parse()` found on the command line: for every flag that `main`
defines, the value given, or `none` when the flag does not occur. -/
structure Flags where
  redis : Option String
  addr : Option String
  token : Option String
  maxRetries : Option Int
  retryDelay : Option Int
  help : Option Bool
  deriving DecidableEq, Repr

/-- A command line without flags. -/
def noFlags : Flags :=
  ⟨none, none, none, none, none, none⟩

/-- The value behind the pointer returned by `flag.String(name, dflt, usage)`
(or `flag.Int`, `flag.Bool`) after `flag.Parse()`. -/
def flagValue {α : Type} (given : Option α) (dflt : α) : α :=
  match given with
  | some v => v
  | none => dflt

/-- Lines 52-70 of `main`: the defaults taken from the environment, the flag
definitions, and the record `cmd`. -/
def buildCmd (env : Env) (f : Flags) : Cmd :=
  let defaultRedis := getEnvOrDefault env "REDIS_ADDR" ":6379"
  let defaultAddr := getEnvOrDefault env "UPSTASH_ADDR" ":8000"
  let defaultToken := getEnvOrDefault env "UPSTASH_TOKEN" "upstash"
  let redisAddr := flagValue f.redis defaultRedis
  let addr := flagValue f.addr defaultAddr
  let apiToken := flagValue f.token defaultToken
  let maxRetries := flagValue f.maxRetries 10
  let retryDelay := flagValue f.retryDelay 1000
  { RedisAddr := redisAddr
    ApiToken := apiToken
    Addr := addr
    MaxRetries := maxRetries
    RetryDelayMs := retryDelay }

/-! ## The pool -/

/-- The `TestOnBorrow` closure of `createRedisPool`.  `idle` is the value of
`time.Since(t)`, `pingErr` the error that `c.Do("PING")` returns on this
connection (`none` for nil).  The result is the returned error and the
effects. -/
def testOnBorrow {E : Type} (idle : Int) (pingErr : Option E) : Option E × List Event :=
  if idle < minute then (none, [])
  else (pingErr, [Event.ping])

/-- The fields of the `redis.Pool` built by `createRedisPool`. -/
structure Pool (C E : Type) where
  MaxIdle : Nat
  MaxActive : Nat
  IdleTimeout : Int
  Wait : Bool
  Dial : Unit → DialOutcome C E
  TestOnBorrow : Int → Option E → Option E × List Event

/-- Go `createRedisPool(addr, maxRetries, retryDelayMs, logger)`. -/
def createRedisPool {C E : Type} (dial : Nat → Except E C) (maxRetries retryDelayMs : Int) :
    Pool C E :=
  { MaxIdle := 10
    MaxActive := 100
    IdleTimeout := 5 * minute
    Wait := true
    Dial := fun _ => dialWithRetry dial maxRetries retryDelayMs
    TestOnBorrow := testOnBorrow }

/-- Go `testRedisConnection(pool, logger)` on the freshly built pool.
`pool.Get()` finds no idle connection and calls `pool.Dial`; when that fails
redigo hands out a connection whose `Do` returns the dial error without
contacting the store.  A `Dial` returning neither a connection nor an error
makes `Do` dereference nil: the process dies with status 2.  `ping c` is the
error returned by `c.Do("PING")`. -/
def testRedisConnection {C E : Type} (pool : Pool C E) (ping : C → Option E) :
    Except Nat (Option (GoError E)) × List Event :=
  let got := pool.Dial ()
  match got.err with
  | some err => (.ok (some (GoError.pingFailed err)), got.trace)
  | none =>
    match got.conn with
    | none => (.error 2, got.trace)
    | some c =>
      match ping c with
      | some e => (.ok (some (GoError.pingFailed (GoError.lib e))), got.trace ++ [Event.ping])
      | none => (.ok none, got.trace ++ [Event.ping])

/-! ## main -/

/-- Everything outside the program that a run of `main` depends on. -/
structure Startup (C E : Type) where
  /-- the process environment -/
  env : Env
  /-- the flags found by `flag.Parse()` -/
  flags : Flags
  /-- whether `config.Build()` of the zap logger returns an error -/
  loggerFails : Bool
  /-- outcome of the call of `redis.Dial` in loop iteration `i` -/
  dial : Nat → Except E C
  /-- error returned by `PING` on an established connection -/
  ping : C → Option E
  /-- exit status of the process once `server.Serve()` has been entered
  (0 when `Serve` returns) -/
  serveStatus : Nat

/-- A finished run of the process. -/
structure Run where
  trace : List Event
  status : Nat
  deriving DecidableEq, Repr

/-- Go `main()`, after `flag.Parse()`.  `log.Fatalf` ends the process with
status 1. -/
def main {C E : Type} (w : Startup C E) : Run :=
  let cmd := buildCmd w.env w.flags
  if flagValue w.flags.help false then
    ⟨[Event.help], 0⟩
  else
    match cmd.Validate with
    | some _ => ⟨[], 1⟩
    | none =>
      if w.loggerFails then ⟨[], 1⟩
      else
        let pool : Pool C E := createRedisPool w.dial cmd.MaxRetries cmd.RetryDelayMs
        match testRedisConnection pool w.ping with
        | (.error status, tr) => ⟨tr, status⟩
        | (.ok (some _), tr) => ⟨tr, 1⟩
        | (.ok none, tr) => ⟨tr ++ [Event.serve], w.serveStatus⟩

/-! ## Reference formulas -/

/-- The trace of `k` consecutive failed iterations starting at index `i`:
each one dials and then sleeps for the backoff delay of its index. -/
def failTrace (retryDelayMs : Int) (i : Nat) : Nat → List Event
  | 0 => []
  | k + 1 =>
    Event.dial :: Event.sleep (backoffDelay retryDelayMs i) :: failTrace retryDelayMs (i + 1) k

/-- The delay of the specification, in nanoseconds and without machine
arithmetic: `baseDelay * 2^attempt` milliseconds capped at 30 seconds. -/
def specDelay (baseDelayMs : Int) (attempt : Nat) : Int :=
  min (baseDelayMs * 2 ^ attempt * 1000000) 30000000000

/-- The specification's total wait before the connection made after `k`
failures: the sum of `specDelay` over the attempts `0 .. k-1`. -/
def specTotalWait (baseDelayMs : Int) (k : Nat) : Int :=
  ((List.range k).map (specDelay baseDelayMs)).sum

/-! ## Sample inputs -/

/-- An environment for the instances below: `REDIS_ADDR`, `UPSTASH_TOKEN`
and a variable `MAX_RETRIES` are set. -/
def sampleEnv : Env := fun key =>
  if key = "REDIS_ADDR" then some "redis:6379"
  else if key = "UPSTASH_TOKEN" then some "secret"
  else if key = "MAX_RETRIES" then some "3"
  else none

/-- A run for the instance below: an empty `--token`, a store that would
accept every connection. -/
def invalidStartup : Startup Nat Nat :=
  { env := fun _ => none
    flags := ⟨none, none, some "", none, none, none⟩
    loggerFails := false
    dial := fun _ => Except.ok 1
    ping := fun _ => none
    serveStatus := 0 }

/-- A run for the instance below: default configuration, `--max-retries 2`,
a store that refuses every connection. -/
def unreachableStartup : Startup Nat Nat :=
  { env := fun _ => none
    flags := ⟨none, none, none, some 2, none, none⟩
    loggerFails := false
    dial := fun _ => Except.error 111
    ping := fun _ => none
    serveStatus := 0 }

/-! ## Traces -/

theorem attempts_append (a b : List Event) : attempts (a ++ b) = attempts a + attempts b := by
  induction a with
  | nil => simp [attempts]
  | cons x t ih =>
    cases x <;> simp [attempts, ih]
    omega

theorem sleeps_append (a b : List Event) : sleeps (a ++ b) = sleeps a ++ sleeps b := by
  induction a with
  | nil => simp [sleeps]
  | cons x t ih => cases x <;> simp [sleeps, ih]

theorem totalWait_append (a b : List Event) : totalWait (a ++ b) = totalWait a + totalWait b := by
  simp [totalWait, sleeps_append]

theorem attempts_failTrace (base : Int) (k : Nat) :
    ∀ i, attempts (failTrace base i k) = k := by
  induction k with
  | zero => intro i; rfl
  | succ k ih => intro i; simp [failTrace, attempts, ih]

theorem sleeps_failTrace (base : Int) (k : Nat) :
    ∀ i, sleeps (failTrace base i k) = (List.range' i k).map (backoffDelay base) := by
  induction k with
  | zero => intro i; rfl
  | succ k ih => intro i; simp [failTrace, sleeps, ih, List.range']

theorem serve_not_mem_failTrace (base : Int) (k : Nat) :
    ∀ i, Event.serve ∉ failTrace base i k := by
  induction k with
  | zero => intro i; simp [failTrace]
  | succ k ih => intro i; simp [failTrace, ih]

/-! ## The backoff delay -/

theorem backoffDelay_le (base : Int) (i : Nat) : backoffDelay base i ≤ 30 * second := by
  unfold backoffDelay
  simp only
  split
  · exact le_refl _
  · omega

theorem sleepTime_backoffDelay_le (base : Int) (i : Nat) :
    sleepTime (backoffDelay base i) ≤ 30 * second := by
  have h := backoffDelay_le base i
  unfold sleepTime
  split
  · simp [second, millisecond]
  · exact h

theorem wrapInt64_add_mul (x t : Int) : wrapInt64 (x + 2 ^ 64 * t) = wrapInt64 x := by
  unfold wrapInt64
  rw [show x + 2 ^ 64 * t + 2 ^ 63 = (x + 2 ^ 63) + 2 ^ 64 * t by ring,
    Int.add_mul_emod_self_left]

theorem wrapInt64_eq_add (x : Int) : ∃ t, wrapInt64 x = x + 2 ^ 64 * t := by
  refine ⟨-((x + 2 ^ 63) / 2 ^ 64), ?_⟩
  unfold wrapInt64
  have := Int.emod_add_ediv (x + 2 ^ 63) (2 ^ 64)
  linarith

theorem wrapInt64_mul_wrap_left (a b : Int) :
    wrapInt64 (wrapInt64 a * b) = wrapInt64 (a * b) := by
  obtain ⟨t, ht⟩ := wrapInt64_eq_add a
  rw [ht, show (a + 2 ^ 64 * t) * b = a * b + 2 ^ 64 * (t * b) by ring, wrapInt64_add_mul]

theorem wrapInt64_of_range (x : Int) (h0 : -2 ^ 63 ≤ x) (h1 : x < 2 ^ 63) :
    wrapInt64 x = x := by
  unfold wrapInt64
  rw [Int.emod_eq_of_lt (by linarith) (by linarith)]
  ring

/-- The backoff delay in closed form: one wrap-around of the exact product,
then the cap. -/
theorem backoffDelay_eq (base : Int) (i : Nat) :
    backoffDelay base i
      = if wrapInt64 (base * 2 ^ i * 1000000) > 30 * second then 30 * second
        else wrapInt64 (base * 2 ^ i * 1000000) := by
  have h : mulInt64 (mulInt64 base (shlInt64 1 i)) millisecond
      = wrapInt64 (base * 2 ^ i * 1000000) := by
    unfold mulInt64 shlInt64 millisecond
    rw [wrapInt64_mul_wrap_left,
      show base * wrapInt64 (1 * 2 ^ i) * 1000000
        = wrapInt64 (1 * 2 ^ i) * (base * 1000000) by ring,
      wrapInt64_mul_wrap_left]
    congr 1
    ring
  unfold backoffDelay
  simp only [h]

/-- Without overflow the delay computed by the code is the delay of the
specification. -/
theorem backoffDelay_eq_specDelay (base : Int) (i : Nat) (h0 : 0 ≤ base)
    (h1 : base * 2 ^ i * 1000000 < 2 ^ 63) : backoffDelay base i = specDelay base i := by
  have hp : (0 : Int) ≤ base * 2 ^ i * 1000000 := by positivity
  rw [backoffDelay_eq, wrapInt64_of_range _ (by linarith) h1]
  unfold specDelay second millisecond
  generalize base * 2 ^ i * 1000000 = x
  split
  · rw [min_eq_right (by omega)]; norm_num
  · rw [min_eq_left (by omega)]

/-- With the default base delay the cap is reached at index 5 and holds up to
index 33. -/
theorem backoffDelay_1000_capped (i : Nat) (h5 : 5 ≤ i) (h33 : i ≤ 33) :
    backoffDelay 1000 i = 30 * second := by
  interval_cases i <;> decide

/-- With the default base delay every index from 55 on gives no delay at all:
the product is a multiple of `2^64`. -/
theorem backoffDelay_1000_zero (i : Nat) (h : 55 ≤ i) : backoffDelay 1000 i = 0 := by
  obtain ⟨j, rfl⟩ := Nat.exists_eq_add_of_le h
  have : (1000 : Int) * 2 ^ (55 + j) * 1000000 = 0 + 2 ^ 64 * (1953125 * 2 ^ j) := by
    rw [pow_add]; ring
  rw [backoffDelay_eq, this, wrapInt64_add_mul]
  decide

theorem sleeps_failTrace_le (base : Int) (i k : Nat) :
    ∀ d ∈ sleeps (failTrace base i k), d ≤ 30 * second := by
  intro d hd
  rw [sleeps_failTrace] at hd
  obtain ⟨j, _, rfl⟩ := List.mem_map.mp hd
  exact backoffDelay_le base j

theorem totalWait_failTrace_le (base : Int) (k : Nat) :
    ∀ i, totalWait (failTrace base i k) ≤ (k : Int) * (30 * second) := by
  induction k with
  | zero => intro i; simp [failTrace, totalWait, sleeps]
  | succ k ih =>
    intro i
    have h1 := sleepTime_backoffDelay_le base i
    have h2 := ih (i + 1)
    simp only [totalWait, failTrace, sleeps, List.map_cons, List.sum_cons] at h2 ⊢
    push_cast
    linarith

theorem totalWait_failTrace_spec (base : Int) (k : Nat) (h0 : 0 ≤ base)
    (h1 : ∀ i, i < k → base * 2 ^ i * 1000000 < 2 ^ 63) :
    totalWait (failTrace base 0 k) = specTotalWait base k := by
  unfold totalWait specTotalWait
  rw [sleeps_failTrace, List.map_map, List.range_eq_range']
  congr 1
  apply List.map_congr_left
  intro i hi
  have hik : i < k := by simpa using hi
  have hp : (0 : Int) ≤ base * 2 ^ i * 1000000 := by positivity
  have hs : 0 ≤ specDelay base i := by
    unfold specDelay
    exact le_min hp (by norm_num)
  simp only [Function.comp_apply, backoffDelay_eq_specDelay base i h0 (h1 i hik)]
  unfold sleepTime
  split
  · omega
  · rfl


/-! ## The retry loop -/

theorem dialLoop_done {C E : Type} (dial : Nat → Except E C) (maxRetries base : Int)
    (i : Nat) (err : Option E) (tr : List Event) (h : ¬ (i : Int) < maxRetries) :
    dialLoop dial maxRetries base i err tr
      = ⟨none, some (GoError.connectFailed maxRetries err), tr⟩ := by
  rw [dialLoop, if_neg h]

theorem dialLoop_ok {C E : Type} (dial : Nat → Except E C) (maxRetries base : Int)
    (i : Nat) (err : Option E) (tr : List Event) (c : C)
    (h : (i : Int) < maxRetries) (hd : dial i = .ok c) :
    dialLoop dial maxRetries base i err tr = ⟨some c, none, tr ++ [Event.dial]⟩ := by
  rw [dialLoop, if_pos h, hd]

theorem dialLoop_error {C E : Type} (dial : Nat → Except E C) (maxRetries base : Int)
    (i : Nat) (err : Option E) (tr : List Event) (e : E)
    (h : (i : Int) < maxRetries) (hd : dial i = .error e) :
    dialLoop dial maxRetries base i err tr
      = dialLoop dial maxRetries base (i + 1) (some e)
          (tr ++ [Event.dial, Event.sleep (backoffDelay base i)]) := by
  rw [dialLoop, if_pos h, hd]

/-- After `k` failed iterations starting at `i`, a successful dial at index
`i + k` ends the loop with that connection. -/
theorem dialLoop_fail_then_ok {C E : Type} (dial : Nat → Except E C) (maxRetries base : Int)
    (c : C) (k : Nat) :
    ∀ (i : Nat) (err : Option E) (tr : List Event),
      (∀ j, j < k → ∃ e, dial (i + j) = .error e) → dial (i + k) = .ok c →
      ((i + k : Nat) : Int) < maxRetries →
      dialLoop dial maxRetries base i err tr
        = ⟨some c, none, tr ++ failTrace base i k ++ [Event.dial]⟩ := by
  induction k with
  | zero =>
    intro i err tr _ hok hlt
    simpa [failTrace] using dialLoop_ok dial maxRetries base i err tr c (by simpa using hlt) hok
  | succ k ih =>
    intro i err tr hfail hok hlt
    obtain ⟨e, he⟩ := hfail 0 (Nat.succ_pos k)
    have hi : (i : Int) < maxRetries := by push_cast at hlt; omega
    rw [dialLoop_error dial maxRetries base i err tr e hi (by simpa using he)]
    have hfail2 : ∀ j, j < k → ∃ e, dial (i + 1 + j) = .error e := by
      intro j hj
      have := hfail (j + 1) (by omega)
      rwa [show i + (j + 1) = i + 1 + j by omega] at this
    have hok2 : dial (i + 1 + k) = .ok c := by
      rwa [show i + (k + 1) = i + 1 + k by omega] at hok
    have hlt2 : ((i + 1 + k : Nat) : Int) < maxRetries := by push_cast at hlt ⊢; omega
    rw [ih (i + 1) (some e) _ hfail2 hok2 hlt2]
    simp [failTrace]

/-- When the iterations `i .. i + k` all fail and `i + k` is the last index
below `maxRetries`, the loop ends with the error that wraps the error of the
last dial. -/
theorem dialLoop_all_fail {C E : Type} (dial : Nat → Except E C) (maxRetries base : Int)
    (e : E) (k : Nat) :
    ∀ (i : Nat) (err : Option E) (tr : List Event),
      (∀ j, j < k → ∃ e2, dial (i + j) = .error e2) → dial (i + k) = .error e →
      ((i + k + 1 : Nat) : Int) = maxRetries →
      dialLoop dial maxRetries base i err tr
        = ⟨none, some (GoError.connectFailed maxRetries (some e)),
            tr ++ failTrace base i (k + 1)⟩ := by
  induction k with
  | zero =>
    intro i err tr _ hlast hmax
    have hi : (i : Int) < maxRetries := by push_cast at hmax; omega
    rw [dialLoop_error dial maxRetries base i err tr e hi (by simpa using hlast)]
    rw [dialLoop_done]
    · simp [failTrace]
    · push_cast at hmax ⊢; omega
  | succ k ih =>
    intro i err tr hfail hlast hmax
    obtain ⟨e0, he0⟩ := hfail 0 (Nat.succ_pos k)
    have hi : (i : Int) < maxRetries := by push_cast at hmax; omega
    rw [dialLoop_error dial maxRetries base i err tr e0 hi (by simpa using he0)]
    have hfail2 : ∀ j, j < k → ∃ e2, dial (i + 1 + j) = .error e2 := by
      intro j hj
      have := hfail (j + 1) (by omega)
      rwa [show i + (j + 1) = i + 1 + j by omega] at this
    have hlast2 : dial (i + 1 + k) = .error e := by
      rwa [show i + (k + 1) = i + 1 + k by omega] at hlast
    have hmax2 : ((i + 1 + k + 1 : Nat) : Int) = maxRetries := by push_cast at hmax ⊢; omega
    rw [ih (i + 1) (some e0) _ hfail2 hlast2 hmax2]
    simp [failTrace]

/-- Every run of the loop is a number `k` of failed iterations, at most the
number of indices left, followed either by a successful dial or by the end of
the loop. -/
theorem dialLoop_shape {C E : Type} (dial : Nat → Except E C) (maxRetries base : Int)
    (n : Nat) :
    ∀ (i : Nat) (err : Option E) (tr : List Event), (maxRetries - i).toNat = n →
      ∃ k, k ≤ n ∧
        ((∃ c, k < n ∧ dial (i + k) = .ok c ∧
            dialLoop dial maxRetries base i err tr
              = ⟨some c, none, tr ++ failTrace base i k ++ [Event.dial]⟩) ∨
         (k = n ∧ ∃ cause,
            dialLoop dial maxRetries base i err tr
              = ⟨none, some (GoError.connectFailed maxRetries cause),
                  tr ++ failTrace base i k⟩)) := by
  induction n with
  | zero =>
    intro i err tr hn
    refine ⟨0, le_refl _, Or.inr ⟨rfl, err, ?_⟩⟩
    rw [dialLoop_done dial maxRetries base i err tr (by omega)]
    simp [failTrace]
  | succ n ih =>
    intro i err tr hn
    have hi : (i : Int) < maxRetries := by omega
    cases hd : dial i with
    | ok c =>
      refine ⟨0, Nat.zero_le _, Or.inl ⟨c, Nat.succ_pos n, by simpa using hd, ?_⟩⟩
      rw [dialLoop_ok dial maxRetries base i err tr c hi hd]
      simp [failTrace]
    | error e =>
      rw [dialLoop_error dial maxRetries base i err tr e hi hd]
      have hn2 : (maxRetries - ((i + 1 : Nat) : Int)).toNat = n := by push_cast; omega
      obtain ⟨k, hk, h⟩ := ih (i + 1) (some e)
        (tr ++ [Event.dial, Event.sleep (backoffDelay base i)]) hn2
      refine ⟨k + 1, Nat.succ_le_succ hk, ?_⟩
      rcases h with ⟨c, hlt, hok, heq⟩ | ⟨hkn, cause, heq⟩
      · refine Or.inl ⟨c, Nat.succ_lt_succ hlt, ?_, ?_⟩
        · rwa [show i + (k + 1) = i + 1 + k by omega]
        · rw [heq]; simp [failTrace]
      · refine Or.inr ⟨by omega, cause, ?_⟩
        rw [heq]; simp [failTrace]

/-- When the first `k` dials fail and the next one succeeds within the budget,
`dialWithRetry` returns that connection; its trace is `k` failed iterations
and one more dial. -/
theorem dialWithRetry_fail_then_ok {C E : Type} (dial : Nat → Except E C)
    (maxRetries base : Int) (c : C) (k : Nat)
    (hfail : ∀ j, j < k → ∃ e, dial j = .error e) (hok : dial k = .ok c)
    (hk : (k : Int) < maxRetries) :
    dialWithRetry dial maxRetries base = ⟨some c, none, failTrace base 0 k ++ [Event.dial]⟩ := by
  unfold dialWithRetry
  rw [dialLoop_fail_then_ok dial maxRetries base c k 0 none []
    (by simpa using hfail) (by simpa using hok) (by simpa using hk)]
  simp

/-- Shape of every run of `dialWithRetry`. -/
theorem dialWithRetry_shape {C E : Type} (dial : Nat → Except E C) (maxRetries base : Int) :
    ∃ k, k ≤ maxRetries.toNat ∧
      ((∃ c, k < maxRetries.toNat ∧ dial k = .ok c ∧
          dialWithRetry dial maxRetries base
            = ⟨some c, none, failTrace base 0 k ++ [Event.dial]⟩) ∨
       (k = maxRetries.toNat ∧ ∃ cause,
          dialWithRetry dial maxRetries base
            = ⟨none, some (GoError.connectFailed maxRetries cause), failTrace base 0 k⟩)) := by
  obtain ⟨k, hk, h⟩ := dialLoop_shape dial maxRetries base maxRetries.toNat 0 none []
    (by simp)
  refine ⟨k, hk, ?_⟩
  unfold dialWithRetry
  rcases h with ⟨c, hlt, hok, heq⟩ | ⟨hkn, cause, heq⟩
  · exact Or.inl ⟨c, hlt, by simpa using hok, by simpa using heq⟩
  · exact Or.inr ⟨hkn, cause, by simpa using heq⟩

/-- When every dial within the budget fails and the budget is at least one,
`dialWithRetry` returns the error wrapping the error of the last dial after
`maxRetries` failed iterations. -/
theorem dialWithRetry_all_fail {C E : Type} (dial : Nat → Except E C)
    (maxRetries base : Int) (h1 : 1 ≤ maxRetries)
    (hfail : ∀ i : Nat, (i : Int) < maxRetries → ∃ e, dial i = .error e) :
    ∃ e, dial (maxRetries.toNat - 1) = .error e ∧
      dialWithRetry dial maxRetries base
        = ⟨none, some (GoError.connectFailed maxRetries (some e)),
            failTrace base 0 maxRetries.toNat⟩ := by
  obtain ⟨m, hm⟩ : ∃ m : Nat, maxRetries.toNat = m + 1 := ⟨maxRetries.toNat - 1, by omega⟩
  obtain ⟨e, he⟩ := hfail m (by omega)
  refine ⟨e, by simpa [hm] using he, ?_⟩
  unfold dialWithRetry
  rw [dialLoop_all_fail dial maxRetries base e m 0 none []
    (fun j hj => by simpa using hfail j (by omega)) (by simpa using he)
    (by push_cast; omega), hm]
  simp

/-- Total wait of 35 failed iterations with the default base delay. -/
theorem totalWait_failTrace_1000_35 : totalWait (failTrace 1000 0 35) = 901 * second := by
  decide

/-! ## Claims about the retry loop -/

/-- C1 (evaluation at the failing index): with the default base delay of
1000 ms the delays of the first five attempts are 1, 2, 4, 8 and 16 seconds
and the delay of attempt index 5 is the 30 second cap, but at attempt index 34
the product `1000 * 2^34 * 1000000` exceeds the `int64` range: the computed
duration is negative, the cap test does not fire and `time.Sleep` returns at
once instead of waiting 30 seconds. -/
theorem backoffDelay_1000_overflows_at_34 :
    (List.range 6).map (backoffDelay 1000)
        = [1000 * millisecond, 2000 * millisecond, 4000 * millisecond, 8000 * millisecond,
            16000 * millisecond, 30000 * millisecond] ∧
      backoffDelay 1000 34 = -1266874889709551616 ∧
      backoffDelay 1000 34 ≠ 30000 * millisecond ∧
      sleepTime (backoffDelay 1000 34) = 0 := by
  decide

/-- C2 (counterexample): with `maxRetries = -3` the loop body never runs, so
`dialWithRetry` makes 0 connection attempts, and 0 is not at most -3: the
bound "at most `maxRetries` attempts" does not hold for a negative
`maxRetries`. -/
theorem dialWithRetry_attempts_exceed_negative_budget :
    attempts (dialWithRetry (C := Nat) (E := Nat) (fun _ => Except.ok 1) (-3) 1000).trace = 0 ∧
      ¬ ((attempts (dialWithRetry (C := Nat) (E := Nat)
          (fun _ => Except.ok 1) (-3) 1000).trace : Int) ≤ -3) := by
  have heq : dialWithRetry (C := Nat) (E := Nat) (fun _ => Except.ok 1) (-3) 1000
      = ⟨none, some (GoError.connectFailed (-3) none), []⟩ := by
    unfold dialWithRetry
    exact dialLoop_done _ (-3) 1000 0 none [] (by decide)
  rw [heq]
  exact ⟨rfl, by decide⟩

/-- C2 (amended): for every `maxRetries`, base delay and sequence of dial
outcomes, `dialWithRetry` makes at most `max(maxRetries, 0)` connection
attempts, that is at most `maxRetries` when `maxRetries ≥ 0` and none when
`maxRetries` is negative; and when `maxRetries ≥ 1` and every dial fails, it
dials exactly `maxRetries` times and returns no connection and a non-nil error
that wraps the error of the last dial. -/
theorem dialWithRetry_attempt_budget {C E : Type} (dial : Nat → Except E C)
    (maxRetries base : Int) :
    (attempts (dialWithRetry dial maxRetries base).trace ≤ maxRetries.toNat ∧
      (attempts (dialWithRetry dial maxRetries base).trace : Int) ≤ max maxRetries 0) ∧
      (1 ≤ maxRetries → (∀ i : Nat, (i : Int) < maxRetries → ∃ e, dial i = .error e) →
        ∃ e, dial (maxRetries.toNat - 1) = .error e ∧
          (attempts (dialWithRetry dial maxRetries base).trace : Int) = maxRetries ∧
          (dialWithRetry dial maxRetries base).conn = none ∧
          (dialWithRetry dial maxRetries base).err
            = some (GoError.connectFailed maxRetries (some e)) ∧
          (dialWithRetry dial maxRetries base).err.bind GoError.unwrap
            = some (GoError.lib e)) := by
  have hle : attempts (dialWithRetry dial maxRetries base).trace ≤ maxRetries.toNat := by
    obtain ⟨k, hk, h⟩ := dialWithRetry_shape dial maxRetries base
    rcases h with ⟨c, hlt, _, heq⟩ | ⟨_, cause, heq⟩
    · rw [heq]
      simp only [attempts_append, attempts_failTrace, attempts]
      omega
    · rw [heq]
      simp only [attempts_failTrace]
      exact hk
  refine ⟨⟨hle, ?_⟩, ?_⟩
  · rcases le_total maxRetries 0 with hm | hm
    · rw [max_eq_right hm]; omega
    · rw [max_eq_left hm]; omega
  · intro h1 hfail
    obtain ⟨e, he, heq⟩ := dialWithRetry_all_fail dial maxRetries base h1 hfail
    refine ⟨e, he, ?_⟩
    rw [heq]
    refine ⟨?_, rfl, rfl, rfl⟩
    simp only [attempts_failTrace]
    omega

/-- C2 (amended), instance: a budget of three attempts against a store that
refuses every connection. -/
theorem dialWithRetry_attempt_budget_witness :
    (attempts (dialWithRetry (C := Nat) (fun i => Except.error (10 + i)) 3 1000).trace
        ≤ (3 : Int).toNat ∧
      (attempts (dialWithRetry (C := Nat) (fun i => Except.error (10 + i)) 3 1000).trace : Int)
        ≤ max 3 0) ∧
      ∃ e, (fun i => (Except.error (10 + i) : Except Nat Nat)) ((3 : Int).toNat - 1) = .error e ∧
        (attempts (dialWithRetry (C := Nat) (fun i => Except.error (10 + i)) 3 1000).trace : Int)
          = 3 ∧
        (dialWithRetry (C := Nat) (fun i => Except.error (10 + i)) 3 1000).conn = none ∧
        (dialWithRetry (C := Nat) (fun i => Except.error (10 + i)) 3 1000).err
          = some (GoError.connectFailed 3 (some e)) ∧
        (dialWithRetry (C := Nat) (fun i => Except.error (10 + i)) 3 1000).err.bind
          GoError.unwrap = some (GoError.lib e) :=
  ⟨(dialWithRetry_attempt_budget (C := Nat) (fun i => Except.error (10 + i)) 3 1000).1,
    (dialWithRetry_attempt_budget (C := Nat) (fun i => Except.error (10 + i)) 3 1000).2
      (by decide) (fun i _ => ⟨10 + i, rfl⟩)⟩

/-- C3 (evaluation at the failing input): with `maxRetries = 36`, the default
base delay of 1000 ms and a store that refuses the first 35 connections and
accepts the next one, `dialWithRetry` returns that connection with a nil error
after 36 attempts, but it has waited 901 seconds in total, not the 931 seconds
given by the sum of `min(baseDelay * 2^i ms, 30 s)` over `i = 0 .. 34`: the
delay of index 34 overflows and no time is waited there. -/
theorem dialWithRetry_wait_short_after_overflow :
    (dialWithRetry (C := Nat) (E := Nat)
        (fun n => if n < 35 then Except.error 0 else Except.ok 1) 36 1000).conn = some 1 ∧
      (dialWithRetry (C := Nat) (E := Nat)
        (fun n => if n < 35 then Except.error 0 else Except.ok 1) 36 1000).err = none ∧
      attempts (dialWithRetry (C := Nat) (E := Nat)
        (fun n => if n < 35 then Except.error 0 else Except.ok 1) 36 1000).trace = 36 ∧
      totalWait (dialWithRetry (C := Nat) (E := Nat)
        (fun n => if n < 35 then Except.error 0 else Except.ok 1) 36 1000).trace
          = 901 * second ∧
      specTotalWait 1000 35 = 931 * second := by
  have h := dialWithRetry_fail_then_ok (C := Nat) (E := Nat)
    (fun n => if n < 35 then Except.error 0 else Except.ok 1) 36 1000 1 35
    (fun j hj => ⟨0, by simp [hj]⟩) (by simp) (by decide)
  rw [h]
  refine ⟨rfl, rfl, ?_, ?_, ?_⟩
  · simp [attempts_append, attempts_failTrace, attempts]
  · rw [totalWait_append, totalWait_failTrace_1000_35]
    decide
  · decide

/-- C4: every duration `dialWithRetry` hands to `time.Sleep` is at most 30
seconds, it sleeps at most `maxRetries` times, and for `maxRetries ≥ 0` the
total time it waits is at most `maxRetries * 30` seconds, for every base delay
and every sequence of dial outcomes. -/
theorem dialWithRetry_wait_bounded {C E : Type} (dial : Nat → Except E C)
    (maxRetries base : Int) (h0 : 0 ≤ maxRetries) :
    (∀ d ∈ sleeps (dialWithRetry dial maxRetries base).trace,
        d ≤ 30 * second ∧ sleepTime d ≤ 30 * second) ∧
      ((sleeps (dialWithRetry dial maxRetries base).trace).length : Int) ≤ maxRetries ∧
      totalWait (dialWithRetry dial maxRetries base).trace ≤ maxRetries * (30 * second) := by
  have hs : (0 : Int) ≤ 30 * second := by decide
  have hcap : ∀ d : Int, d ≤ 30 * second → sleepTime d ≤ 30 * second := by
    intro d hd
    unfold sleepTime
    split
    · exact hs
    · exact hd
  obtain ⟨k, hk, h⟩ := dialWithRetry_shape dial maxRetries base
  have hkm : (k : Int) ≤ maxRetries := by omega
  have hsl : sleeps (dialWithRetry dial maxRetries base).trace = sleeps (failTrace base 0 k) := by
    rcases h with ⟨c, _, _, heq⟩ | ⟨_, cause, heq⟩
    · rw [heq]; simp [sleeps_append, sleeps]
    · rw [heq]
  have htw : totalWait (dialWithRetry dial maxRetries base).trace
      = totalWait (failTrace base 0 k) := by
    unfold totalWait
    rw [hsl]
  refine ⟨?_, ?_, ?_⟩
  · intro d hd
    rw [hsl] at hd
    have := sleeps_failTrace_le base 0 k d hd
    exact ⟨this, hcap d this⟩
  · rw [hsl, sleeps_failTrace]
    simpa using hkm
  · rw [htw]
    have h1 := totalWait_failTrace_le base k 0
    have h2 : (k : Int) * (30 * second) ≤ maxRetries * (30 * second) :=
      mul_le_mul_of_nonneg_right hkm hs
    exact le_trans h1 h2

/-- C4, instance: two refused connections, then an accepted one, with a budget
of five attempts and a base delay of 20 seconds. -/
theorem dialWithRetry_wait_bounded_witness :
    (0 : Int) ≤ 5 ∧
      (∀ d ∈ sleeps (dialWithRetry (C := Nat) (E := Nat)
          (fun n => if n < 2 then Except.error 0 else Except.ok 1) 5 20000).trace,
        d ≤ 30 * second ∧ sleepTime d ≤ 30 * second) ∧
      ((sleeps (dialWithRetry (C := Nat) (E := Nat)
          (fun n => if n < 2 then Except.error 0 else Except.ok 1) 5 20000).trace).length : Int)
        ≤ 5 ∧
      totalWait (dialWithRetry (C := Nat) (E := Nat)
          (fun n => if n < 2 then Except.error 0 else Except.ok 1) 5 20000).trace
        ≤ 5 * (30 * second) :=
  ⟨by decide, dialWithRetry_wait_bounded (C := Nat) (E := Nat)
    (fun n => if n < 2 then Except.error 0 else Except.ok 1) 5 20000 (by decide)⟩

/-- C9: for every `maxRetries ≤ 0`, whatever the store would answer,
`dialWithRetry` dials never, sleeps never, and returns a nil connection with
a non-nil error (which wraps nothing); `Validate` accepts such a value of
`MaxRetries`. -/
theorem dialWithRetry_no_budget {C E : Type} (dial : Nat → Except E C)
    (maxRetries base : Int) (h : maxRetries ≤ 0) :
    dialWithRetry dial maxRetries base
        = ⟨none, some (GoError.connectFailed maxRetries none), []⟩ ∧
      attempts (dialWithRetry dial maxRetries base).trace = 0 ∧
      sleeps (dialWithRetry dial maxRetries base).trace = [] ∧
      (dialWithRetry dial maxRetries base).conn = none ∧
      (dialWithRetry dial maxRetries base).err ≠ none ∧
      Cmd.Validate ⟨":6379", ":8000", "upstash", maxRetries, base⟩ = none := by
  have heq : dialWithRetry dial maxRetries base
      = ⟨none, some (GoError.connectFailed maxRetries none), []⟩ := by
    unfold dialWithRetry
    exact dialLoop_done dial maxRetries base 0 none [] (by simpa using h)
  rw [heq]
  refine ⟨rfl, rfl, rfl, rfl, by simp, by simp [Cmd.Validate]⟩

/-- C9, instance: a budget of zero attempts against a store that accepts every
connection. -/
theorem dialWithRetry_no_budget_witness :
    (0 : Int) ≤ 0 ∧
      dialWithRetry (C := Nat) (E := Nat) (fun _ => Except.ok 1) 0 1000
        = ⟨none, some (GoError.connectFailed 0 none), []⟩ ∧
      attempts (dialWithRetry (C := Nat) (E := Nat) (fun _ => Except.ok 1) 0 1000).trace = 0 ∧
      sleeps (dialWithRetry (C := Nat) (E := Nat) (fun _ => Except.ok 1) 0 1000).trace = [] ∧
      (dialWithRetry (C := Nat) (E := Nat) (fun _ => Except.ok 1) 0 1000).conn = none ∧
      (dialWithRetry (C := Nat) (E := Nat) (fun _ => Except.ok 1) 0 1000).err ≠ none ∧
      Cmd.Validate ⟨":6379", ":8000", "upstash", 0, 1000⟩ = none :=
  ⟨le_refl _, dialWithRetry_no_budget (C := Nat) (E := Nat) (fun _ => Except.ok 1) 0 1000
    (le_refl _)⟩

/-! ## Claims about the health check -/

/-- C5 (counterexample): a session that has been idle for exactly one minute
has not been idle longer than the threshold, and still `TestOnBorrow` sends
`PING` and returns its error; so the probe is not issued only for sessions
idle longer than one minute. -/
theorem testOnBorrow_probes_at_one_minute :
    testOnBorrow (E := Nat) minute (some 7) = (some 7, [Event.ping]) ∧
      ¬ (∀ (idle : Int) (pingErr : Option Nat),
          Event.ping ∈ (testOnBorrow idle pingErr).2 → minute < idle) := by
  refine ⟨by decide, ?_⟩
  intro h
  have := h minute (some 7) (by decide)
  exact absurd this (lt_irrefl _)

/-- C5 (amended): `TestOnBorrow` sends `PING` exactly for the sessions that
have been idle for at least one minute; for those it returns the error of the
probe (nil when healthy), and for a session idle for less than one minute it
returns nil without contacting the store. -/
theorem testOnBorrow_probe_iff {E : Type} (idle : Int) (pingErr : Option E) :
    (Event.ping ∈ (testOnBorrow idle pingErr).2 ↔ minute ≤ idle) ∧
      (minute ≤ idle → testOnBorrow idle pingErr = (pingErr, [Event.ping])) ∧
      (idle < minute → testOnBorrow idle pingErr = (none, [])) := by
  by_cases h : idle < minute
  · have e : testOnBorrow idle pingErr = (none, []) := by
      unfold testOnBorrow
      rw [if_pos h]
    rw [e]
    refine ⟨⟨fun hm => by simp at hm, fun hm => absurd h (not_lt.mpr hm)⟩,
      fun hm => absurd h (not_lt.mpr hm), fun _ => rfl⟩
  · have e : testOnBorrow idle pingErr = (pingErr, [Event.ping]) := by
      unfold testOnBorrow
      rw [if_neg h]
    rw [e]
    refine ⟨⟨fun _ => not_lt.mp h, fun _ => by simp⟩, fun _ => rfl, fun hm => absurd hm h⟩

/-- C5 (amended), instances: a session idle for two minutes whose probe fails,
and a session idle for thirty seconds. -/
theorem testOnBorrow_probe_iff_witness :
    testOnBorrow (E := Nat) (2 * minute) (some 7) = (some 7, [Event.ping]) ∧
      testOnBorrow (E := Nat) (30 * second) (some 7) = (none, []) :=
  ⟨(testOnBorrow_probe_iff (E := Nat) (2 * minute) (some 7)).2.1 (by decide),
    (testOnBorrow_probe_iff (E := Nat) (30 * second) (some 7)).2.2 (by decide)⟩

/-! ## Claims about the configuration -/

/-- C6 (counterexample): with no flag given, no environment at all changes
the retry budget or the retry base delay; in particular no environment
variable overrides either of them. -/
theorem buildCmd_retry_fields_ignore_env :
    ¬ ∃ env : Env, (buildCmd env noFlags).MaxRetries ≠ 10 ∨
        (buildCmd env noFlags).RetryDelayMs ≠ 1000 := by
  rintro ⟨env, h | h⟩ <;> exact h rfl

/-- C6 (amended): each of the five configuration values is overridden by its
command-line flag, whose value is placed in the record whatever the
environment holds.  With no flag given, the backing-store address, the listen
address and the bearer token take the non-empty value of `REDIS_ADDR`,
`UPSTASH_ADDR` and `UPSTASH_TOKEN`; the retry budget and the retry base delay
have no environment variable and are 10 and 1000. -/
theorem buildCmd_sources (env : Env) (f : Flags) :
    (∀ v, f.redis = some v → (buildCmd env f).RedisAddr = v) ∧
      (∀ v, f.addr = some v → (buildCmd env f).Addr = v) ∧
      (∀ v, f.token = some v → (buildCmd env f).ApiToken = v) ∧
      (∀ v, f.maxRetries = some v → (buildCmd env f).MaxRetries = v) ∧
      (∀ v, f.retryDelay = some v → (buildCmd env f).RetryDelayMs = v) ∧
      (f.redis = none → getenv env "REDIS_ADDR" ≠ "" →
        (buildCmd env f).RedisAddr = getenv env "REDIS_ADDR") ∧
      (f.addr = none → getenv env "UPSTASH_ADDR" ≠ "" →
        (buildCmd env f).Addr = getenv env "UPSTASH_ADDR") ∧
      (f.token = none → getenv env "UPSTASH_TOKEN" ≠ "" →
        (buildCmd env f).ApiToken = getenv env "UPSTASH_TOKEN") ∧
      (f.maxRetries = none → (buildCmd env f).MaxRetries = 10) ∧
      (f.retryDelay = none → (buildCmd env f).RetryDelayMs = 1000) := by
  refine ⟨?_, ?_, ?_, ?_, ?_, ?_, ?_, ?_, ?_, ?_⟩
  · intro v h; simp [buildCmd, flagValue, h]
  · intro v h; simp [buildCmd, flagValue, h]
  · intro v h; simp [buildCmd, flagValue, h]
  · intro v h; simp [buildCmd, flagValue, h]
  · intro v h; simp [buildCmd, flagValue, h]
  · intro h hv; simp [buildCmd, flagValue, getEnvOrDefault, h, hv]
  · intro h hv; simp [buildCmd, flagValue, getEnvOrDefault, h, hv]
  · intro h hv; simp [buildCmd, flagValue, getEnvOrDefault, h, hv]
  · intro h; simp [buildCmd, flagValue, h]
  · intro h; simp [buildCmd, flagValue, h]

/-- C6 (amended), instance: in `sampleEnv`, a command line that gives only
`--token cli --max-retries 7`. -/
theorem buildCmd_sources_witness :
    (buildCmd sampleEnv ⟨none, none, some "cli", some 7, none, none⟩).ApiToken = "cli" ∧
      (buildCmd sampleEnv ⟨none, none, some "cli", some 7, none, none⟩).MaxRetries = 7 ∧
      (buildCmd sampleEnv ⟨none, none, some "cli", some 7, none, none⟩).RedisAddr
        = getenv sampleEnv "REDIS_ADDR" ∧
      (buildCmd sampleEnv ⟨none, none, some "cli", some 7, none, none⟩).RetryDelayMs = 1000 :=
  ⟨(buildCmd_sources sampleEnv ⟨none, none, some "cli", some 7, none, none⟩).2.2.1 "cli" rfl,
    (buildCmd_sources sampleEnv ⟨none, none, some "cli", some 7, none, none⟩).2.2.2.1 7 rfl,
    (buildCmd_sources sampleEnv ⟨none, none, some "cli", some 7, none, none⟩).2.2.2.2.2.1 rfl
      (by decide),
    (buildCmd_sources sampleEnv ⟨none, none, some "cli", some 7, none, none⟩).2.2.2.2.2.2.2.2.2
      rfl⟩

/-- C7: `Validate` returns a non-nil error exactly when `ApiToken`,
`RedisAddr` or `Addr` is empty; when all three are non-empty it returns nil
for every `MaxRetries` and `RetryDelayMs`. -/
theorem validate_error_iff_empty_field (redisAddr addr apiToken : String)
    (maxRetries retryDelayMs : Int) :
    (Cmd.Validate ⟨redisAddr, addr, apiToken, maxRetries, retryDelayMs⟩ ≠ none ↔
        (apiToken = "" ∨ redisAddr = "" ∨ addr = "")) ∧
      (apiToken ≠ "" → redisAddr ≠ "" → addr ≠ "" →
        ∀ m d : Int, Cmd.Validate ⟨redisAddr, addr, apiToken, m, d⟩ = none) := by
  unfold Cmd.Validate
  by_cases h1 : apiToken = "" <;> by_cases h2 : redisAddr = "" <;> by_cases h3 : addr = "" <;>
    simp [h1, h2, h3]

/-- C7, instances: the default addresses with a token, for an arbitrary pair
of retry settings, and the same record with an empty token. -/
theorem validate_error_iff_empty_field_witness :
    Cmd.Validate ⟨":6379", ":8000", "upstash", -4, 0⟩ = none ∧
      Cmd.Validate ⟨":6379", ":8000", "", 10, 1000⟩ ≠ none :=
  ⟨(validate_error_iff_empty_field ":6379" ":8000" "upstash" 10 1000).2
      (by decide) (by decide) (by decide) (-4) 0,
    (validate_error_iff_empty_field ":6379" ":8000" "" 10 1000).1.2 (Or.inl rfl)⟩

/-- C10: in every environment, with no flag on the command line, the record
built by `main` passes `Validate`: `getEnvOrDefault` returns the value of the
variable when it is non-empty and the default otherwise, and the three
defaults are non-empty, so `RedisAddr`, `Addr` and `ApiToken` are non-empty. -/
theorem buildCmd_noFlags_valid (env : Env) :
    (buildCmd env noFlags).Validate = none ∧
      (∀ key dflt, getenv env key ≠ "" → getEnvOrDefault env key dflt = getenv env key) ∧
      (∀ key dflt, getenv env key = "" → getEnvOrDefault env key dflt = dflt) ∧
      (buildCmd env noFlags).RedisAddr ≠ "" ∧
      (buildCmd env noFlags).Addr ≠ "" ∧
      (buildCmd env noFlags).ApiToken ≠ "" := by
  have hne : ∀ key dflt, dflt ≠ "" → getEnvOrDefault env key dflt ≠ "" := by
    intro key dflt hd
    unfold getEnvOrDefault
    by_cases h : getenv env key = ""
    · simpa [h] using hd
    · simp [h]
  have h1 : (buildCmd env noFlags).RedisAddr ≠ "" := hne "REDIS_ADDR" ":6379" (by decide)
  have h2 : (buildCmd env noFlags).Addr ≠ "" := hne "UPSTASH_ADDR" ":8000" (by decide)
  have h3 : (buildCmd env noFlags).ApiToken ≠ "" := hne "UPSTASH_TOKEN" "upstash" (by decide)
  refine ⟨?_, ?_, ?_, h1, h2, h3⟩
  · unfold Cmd.Validate
    simp [h1, h2, h3]
  · intro key dflt h
    simp [getEnvOrDefault, h]
  · intro key dflt h
    simp [getEnvOrDefault, h]

/-! ## Claims about startup -/

/-- When every dial within the budget fails, `dialWithRetry` returns an error
and its trace consists of failed iterations only. -/
theorem dialWithRetry_fails_of_all_fail {C E : Type} (dial : Nat → Except E C)
    (maxRetries base : Int)
    (hfail : ∀ i : Nat, (i : Int) < maxRetries → ∃ e, dial i = .error e) :
    ∃ k cause, dialWithRetry dial maxRetries base
      = ⟨none, some (GoError.connectFailed maxRetries cause), failTrace base 0 k⟩ := by
  obtain ⟨k, _, h⟩ := dialWithRetry_shape dial maxRetries base
  rcases h with ⟨c, hlt, hok, _⟩ | ⟨_, cause, heq⟩
  · obtain ⟨e, he⟩ := hfail k (by omega)
    rw [hok] at he
    cases he
  · exact ⟨k, cause, heq⟩

/-- C8: in every run of `main` without the help flag, a configuration that
fails `Validate` ends the process with a non-zero status before anything is
dialled and before the server is started (the trace is empty); and a valid
configuration for which every dial of the startup budget fails ends the
process with a non-zero status without the server ever being started. -/
theorem main_fails_before_serving {C E : Type} (w : Startup C E)
    (hhelp : flagValue w.flags.help false = false) :
    ((buildCmd w.env w.flags).Validate ≠ none →
        (main w).status ≠ 0 ∧ (main w).trace = [] ∧ attempts (main w).trace = 0 ∧
          Event.serve ∉ (main w).trace) ∧
      ((buildCmd w.env w.flags).Validate = none →
        (∀ i : Nat, (i : Int) < (buildCmd w.env w.flags).MaxRetries →
          ∃ e, w.dial i = .error e) →
        (main w).status ≠ 0 ∧ Event.serve ∉ (main w).trace) := by
  constructor
  · intro hv
    obtain ⟨msg, hmsg⟩ := Option.ne_none_iff_exists'.mp hv
    have hm : main w = ⟨[], 1⟩ := by
      unfold main
      simp only [hhelp, hmsg]
      rfl
    rw [hm]
    exact ⟨by decide, rfl, rfl, by simp⟩
  · intro hv hfail
    by_cases hl : w.loggerFails = true
    · have hm : main w = ⟨[], 1⟩ := by
        unfold main
        simp only [hhelp, hv, hl]
        rfl
      rw [hm]
      exact ⟨by decide, by simp⟩
    · obtain ⟨k, cause, heq⟩ := dialWithRetry_fails_of_all_fail w.dial
        (buildCmd w.env w.flags).MaxRetries (buildCmd w.env w.flags).RetryDelayMs hfail
      have hm : main w = ⟨failTrace (buildCmd w.env w.flags).RetryDelayMs 0 k, 1⟩ := by
        unfold main
        simp only [hhelp, hv, hl, testRedisConnection, createRedisPool, heq]
        rfl
      rw [hm]
      exact ⟨Nat.one_ne_zero, serve_not_mem_failTrace _ k 0⟩

/-- C8, instances: `invalidStartup` ends with a non-zero status and an empty
trace, `unreachableStartup` ends with a non-zero status without serving. -/
theorem main_fails_before_serving_witness :
    ((main invalidStartup).status ≠ 0 ∧ (main invalidStartup).trace = [] ∧
        attempts (main invalidStartup).trace = 0 ∧ Event.serve ∉ (main invalidStartup).trace) ∧
      ((main unreachableStartup).status ≠ 0 ∧ Event.serve ∉ (main unreachableStartup).trace) :=
  ⟨(main_fails_before_serving invalidStartup rfl).1 (by decide),
    (main_fails_before_serving unreachableStartup rfl).2 (by decide)
      (fun _ _ => ⟨111, rfl⟩)⟩

end UpstashLocal
